import Mathlib

/-!
Shallow embedding of the Winsen MH-Z19 / MH-Z19B / MH-Z14 CO2 sensor
driver (`src/lib.rs`).

Bytes are `Nat` values below 256; the 32-bit tick counter is a `Nat`
reduced modulo `2^32` by `wsub`.  The non-blocking serial transport and
the monotonic clock are modelled by explicit event traces: each polling
iteration of a loop consumes one `(tick, transport result)` event, the
tick being the value `counter.value()` returns at that iteration and the
transport result being the outcome of `serial.read()` or
`serial.write(b)` at that iteration.  A function returns `none` when its
trace is exhausted before the loop terminates, or where a Rust
`assert!` would panic.
-/

/-- Result of one non-blocking single-byte write (`nb::Result<(), E>`). -/
inductive WriteRes (E : Type) where
  | ok : WriteRes E
  | wouldBlock : WriteRes E
  | err : E → WriteRes E
  deriving DecidableEq

/-- Result of one non-blocking single-byte read (`nb::Result<u8, E>`). -/
inductive ReadRes (E : Type) where
  | ok : Nat → ReadRes E
  | wouldBlock : ReadRes E
  | err : E → ReadRes E
  deriving DecidableEq

/-- Driver error type (`Error<E>` in the source). -/
inductive Error (E : Type) where
  | Timeout : Error E
  | Serial : E → Error E
  | WrongChecksum : Error E
  | WrongPacketType : Error E
  deriving DecidableEq

deriving instance DecidableEq for Except

/-- A protocol-level failure: any driver error other than a transport
(`Serial`) error, i.e. `Timeout`, `WrongChecksum` or `WrongPacketType`. -/
def Error.isProtocol {E : Type} : Error E → Bool
  | Error.Serial _ => false
  | _ => true

/-- Bitwise NOT of the 8-bit wrapping sum of the given bytes
(the `checksum` function of the source). -/
def checksum (payload : List Nat) : Nat :=
  255 - payload.foldl (fun sum c => (sum + c) % 256) 0

/-- The 9-byte frame assembled by `send_packet` before transmission:
marker `0xFF`, address `0x01`, the command byte, the payload zero-padded
to five bytes, then the checksum of the first eight bytes. -/
def encodeFrame (command : Nat) (payload : List Nat) : List Nat :=
  ([0xff, 0x01, command] ++ payload ++ List.replicate (5 - payload.length) 0)
    ++ [checksum ([0xff, 0x01, command] ++ payload ++ List.replicate (5 - payload.length) 0)]

/-- 32-bit wrapping subtraction (`u32::wrapping_sub`). -/
def wsub (a b : Nat) : Nat :=
  (a % 4294967296 + (4294967296 - b % 4294967296)) % 4294967296

/-- The byte-transmission loop of `send_packet`: for each byte of the
frame, first compare the elapsed ticks `wsub tick t0` against the budget
`dt` (failing with `Timeout` when `dt` is reached), then attempt one
non-blocking write: success advances to the next byte, a transport error
aborts with `Serial`, and a would-block also advances to the next byte
(its match arm is empty, so control falls through to the next `for`
iteration and the current byte is left unwritten). -/
def sendLoop {E : Type} (t0 dt : Nat) :
    List Nat → List (Nat × WriteRes E) → Option (Except (Error E) Unit)
  | [], _ => some (Except.ok ())
  | _ :: _, [] => none
  | _ :: bs, (tick, w) :: evs =>
    if dt ≤ wsub tick t0 then some (Except.error Error.Timeout)
    else
      match w with
      | WriteRes.ok => sendLoop t0 dt bs evs
      | WriteRes.err e => some (Except.error (Error.Serial e))
      | WriteRes.wouldBlock => sendLoop t0 dt bs evs

/-- The whole of `send_packet`: encode the frame (panicking, i.e. `none`,
when the payload exceeds 5 bytes), take `t0` as the entry reading of the
counter, compute the tick budget `dt = frequency / 10`, and transmit the
nine bytes through `sendLoop`. -/
def send_packet {E : Type} (command : Nat) (payload : List Nat)
    (t0 freq : Nat) (evs : List (Nat × WriteRes E)) : Option (Except (Error E) Unit) :=
  if payload.length > 5 then none
  else sendLoop t0 (freq / 10) (encodeFrame command payload) evs

/-- The marker-scan loop of `receive_packet`: poll reads, discarding
every byte until one equals `0xFF`; on success return the unconsumed
events.  Timeout and transport errors abort exactly as in `sendLoop`. -/
def scanLoop {E : Type} (t0 dt : Nat) :
    List (Nat × ReadRes E) → Option (Except (Error E) (List (Nat × ReadRes E)))
  | [] => none
  | (tick, r) :: evs =>
    if dt ≤ wsub tick t0 then some (Except.error Error.Timeout)
    else
      match r with
      | ReadRes.ok b => if b = 0xff then some (Except.ok evs) else scanLoop t0 dt evs
      | ReadRes.err e => some (Except.error (Error.Serial e))
      | ReadRes.wouldBlock => scanLoop t0 dt evs

/-- The post-marker fill loop of `receive_packet`: iterate once over the
`n` remaining buffer slots, and per slot check the deadline and make one
non-blocking read.  A successful read stores its byte in the slot; a
would-block advances to the next slot as well (its match arm is empty,
so control falls through to the next `for` iteration), leaving the
current slot at its initial value 0; timeout and transport errors
abort.  The slot values are returned in order. -/
def fillLoop {E : Type} (t0 dt : Nat) :
    Nat → List (Nat × ReadRes E) → Option (Except (Error E) (List Nat))
  | 0, _ => some (Except.ok [])
  | _ + 1, [] => none
  | n + 1, (tick, r) :: evs =>
    if dt ≤ wsub tick t0 then some (Except.error Error.Timeout)
    else
      match r with
      | ReadRes.ok b =>
        match fillLoop t0 dt n evs with
        | some (Except.ok bs) => some (Except.ok (b :: bs))
        | other => other
      | ReadRes.err e => some (Except.error (Error.Serial e))
      | ReadRes.wouldBlock =>
        match fillLoop t0 dt n evs with
        | some (Except.ok bs) => some (Except.ok (0 :: bs))
        | other => other

/-- The validation tail of `receive_packet` (lines 138-150 of the
source): the checksum over all nine bytes must be zero, byte 1 must
equal the expected command, and then `respLen` bytes starting at offset
2 are copied out as the response. -/
def decodeChecks {E : Type} (buffer : List Nat) (command : Nat) (respLen : Nat) :
    Except (Error E) (List Nat) :=
  if checksum buffer ≠ 0 then Except.error Error.WrongChecksum
  else if buffer.getD 1 0 ≠ command then Except.error Error.WrongPacketType
  else Except.ok ((buffer.drop 2).take respLen)

/-- The whole of `receive_packet`: panic (`none`) when the response
buffer exceeds 6 bytes; scan for the `0xFF` marker, fill the remaining
eight buffer bytes, then validate.  The result pairs the call's outcome
with the caller's response buffer contents after the call. -/
def receive_packet {E : Type} (command : Nat) (resp : List Nat)
    (t0 freq : Nat) (evs : List (Nat × ReadRes E)) :
    Option (Except (Error E) Unit × List Nat) :=
  if resp.length > 6 then none
  else
    match scanLoop (E := E) t0 (freq / 10) evs with
    | none => none
    | some (Except.error e) => some (Except.error e, resp)
    | some (Except.ok evs2) =>
      match fillLoop (E := E) t0 (freq / 10) 8 evs2 with
      | none => none
      | some (Except.error e) => some (Except.error e, resp)
      | some (Except.ok bs) =>
        match decodeChecks (E := E) (0xff :: bs) command resp.length with
        | Except.error e => some (Except.error e, resp)
        | Except.ok payload => some (Except.ok (), payload)

/-- The trace environment available to one send/receive exchange: the
entry counter readings and the per-iteration events of each phase. -/
structure AttemptEnv (E : Type) where
  sendT0 : Nat
  sendEvs : List (Nat × WriteRes E)
  recvT0 : Nat
  recvEvs : List (Nat × ReadRes E)

/-- The `simple_command` helper: `send_packet` followed, on success, by
`receive_packet` into an empty response buffer. -/
def simple_command {E : Type} (command : Nat) (payload : List Nat)
    (freq : Nat) (env : AttemptEnv E) : Option (Except (Error E) Unit) :=
  match send_packet command payload env.sendT0 freq env.sendEvs with
  | none => none
  | some (Except.error e) => some (Except.error e)
  | some (Except.ok _) =>
    match receive_packet command [] env.recvT0 freq env.recvEvs with
    | none => none
    | some (r, _) => some r

/-- The startup `probe` routine: up to three `simple_command 0x86 []`
exchanges.  On the first two, success returns `Ok(true)`, a `Serial`
error is returned immediately, and any other error advances to the next
attempt; the final attempt maps a non-`Serial` failure to `Ok(false)`.
The second component counts the exchanges actually issued. -/
def probe {E : Type} (freq : Nat) (envs : Nat → AttemptEnv E) :
    Option (Except E Bool × Nat) :=
  match simple_command 0x86 [] freq (envs 0) with
  | none => none
  | some (Except.ok _) => some (Except.ok true, 1)
  | some (Except.error (Error.Serial e)) => some (Except.error e, 1)
  | some (Except.error _) =>
    match simple_command 0x86 [] freq (envs 1) with
    | none => none
    | some (Except.ok _) => some (Except.ok true, 2)
    | some (Except.error (Error.Serial e)) => some (Except.error e, 2)
    | some (Except.error _) =>
      match simple_command 0x86 [] freq (envs 2) with
      | none => none
      | some (Except.ok _) => some (Except.ok true, 3)
      | some (Except.error (Error.Serial e)) => some (Except.error e, 3)
      | some (Except.error _) => some (Except.ok false, 3)

/-- A read trace on which the transport always reports would-block, with
the clock ticking up from `t0` (modulo `2^32`) one tick per poll. -/
def pollTrace {E : Type} (t0 n : Nat) : List (Nat × ReadRes E) :=
  (List.range n).map (fun i => ((t0 + i) % 4294967296, ReadRes.wouldBlock))

/-- The sensor handle (`WinsenSensor<S, C>`): exclusive ownership of one
transport and one counter. -/
structure WinsenSensor (S C : Type) where
  serial : S
  counter : C

/-- Handle construction (`WinsenSensor::new`). -/
def WinsenSensor.new {S C : Type} (serial : S) (counter : C) : WinsenSensor S C :=
  { serial := serial, counter := counter }

/-- Handle decomposition (`WinsenSensor::free`). -/
def WinsenSensor.free {S C : Type} (w : WinsenSensor S C) : S × C :=
  (w.serial, w.counter)

/-- Wrapping subtraction of a tick from itself is zero. -/
theorem wsub_self (a : Nat) : wsub a a = 0 := by
  unfold wsub
  omega

/-- Wrapping subtraction recovers the forward elapsed time even when the
32-bit counter wrapped between the start tick and the current tick. -/
theorem wsub_add (t0 e : Nat) : wsub ((t0 + e) % 4294967296) t0 = e % 4294967296 := by
  unfold wsub
  omega

/-- The 8-bit wrapping-add fold equals the plain sum reduced mod 256. -/
theorem foldl_mod256 (l : List Nat) :
    ∀ s : Nat, s < 256 → l.foldl (fun a c => (a + c) % 256) s = (s + l.sum) % 256 := by
  induction l with
  | nil =>
    intro s hs
    simp [Nat.mod_eq_of_lt hs]
  | cons c l ih =>
    intro s hs
    have h1 : (s + c) % 256 < 256 := Nat.mod_lt _ (by omega)
    simp only [List.foldl_cons, List.sum_cons]
    rw [ih _ h1, Nat.mod_add_mod]
    omega

/-- Closed form for `checksum`. -/
theorem checksum_eq (l : List Nat) : checksum l = 255 - l.sum % 256 := by
  unfold checksum
  rw [foldl_mod256 l 0 (by omega)]
  simp

/-- The checksum digit of a buffer is zero exactly when the wrapping sum
of all of its bytes is `0xFF`. -/
theorem checksum_eq_zero_iff (l : List Nat) : checksum l = 0 ↔ l.sum % 256 = 255 := by
  rw [checksum_eq]
  omega

/-- C1: the code diverges from the claimed re-poll at a concrete
would-block input.  With the clock steady at the start tick and a tick
budget of 10, `send_packet` returns full success on a trace holding a
would-block followed by only eight successful writes: the would-block
arm of the send loop is empty, so the `for` loop advanced past frame
byte 0 without ever writing it.  Likewise the post-marker fill pass
completes its eight slots from only seven successful reads, leaving the
slot polled at the would-block at its initial value 0 instead of
re-polling it. -/
theorem wouldblock_skips_byte :
    send_packet (E := Unit) 0x86 [] 0 100
      (((0 : Nat), WriteRes.wouldBlock) :: List.replicate 8 ((0 : Nat), WriteRes.ok))
      = some (Except.ok ())
    ∧ fillLoop (E := Unit) 0 10 8
      (((0 : Nat), ReadRes.wouldBlock) :: ([1, 2, 3, 4, 5, 6, 7] : List Nat).map
        (fun b => ((0 : Nat), ReadRes.ok b)))
      = some (Except.ok [0, 1, 2, 3, 4, 5, 6, 7]) :=
  ⟨by decide, by decide⟩

/-- The first eight bytes of an encoded frame, as a list. -/
theorem encodeFrame_eq (command : Nat) (payload : List Nat) :
    encodeFrame command payload
      = ([0xff, 0x01, command] ++ payload ++ List.replicate (5 - payload.length) 0)
        ++ [checksum ([0xff, 0x01, command] ++ payload ++ List.replicate (5 - payload.length) 0)] :=
  rfl

/-- Length of the checksummed prefix of an encoded frame. -/
theorem encodeFrame_prefix_length (command : Nat) (payload : List Nat)
    (hp : payload.length ≤ 5) :
    ([0xff, 0x01, command] ++ payload ++ List.replicate (5 - payload.length) 0).length = 8 := by
  simp
  omega

/-- The nine bytes of an encoded frame always have wrapping sum `0xFF`. -/
theorem encodeFrame_sum (command : Nat) (payload : List Nat) :
    (encodeFrame command payload).sum % 256 = 255 := by
  rw [encodeFrame_eq, List.sum_append, checksum_eq]
  simp only [List.sum_cons, List.sum_nil, add_zero]
  omega

/-- C3: an encoded frame's nine bytes have 8-bit wrapping sum `0xFF`,
its byte 8 is the bitwise NOT of the wrapping sum of bytes 0..8, and the
decode step of `receive_packet` reports `WrongChecksum` exactly on the
buffers whose nine bytes do not have wrapping sum `0xFF`. -/
theorem checksum_invariant (E : Type) (command : Nat) (payload : List Nat)
    (buffer : List Nat) (cmd len : Nat)
    (hp : payload.length ≤ 5) (hb : buffer.length = 9) :
    (encodeFrame command payload).sum % 256 = 255
    ∧ (encodeFrame command payload).getD 8 0
        = 255 - ((encodeFrame command payload).take 8).sum % 256
    ∧ (decodeChecks (E := E) buffer cmd len = Except.error Error.WrongChecksum
        ↔ buffer.sum % 256 ≠ 255) := by
  have hlen := encodeFrame_prefix_length command payload hp
  refine ⟨encodeFrame_sum command payload, ?_, ?_⟩
  · rw [encodeFrame_eq, List.getD_append_right _ _ _ _ (by omega), hlen,
      List.take_left' hlen, checksum_eq]
    simp
  · unfold decodeChecks
    by_cases hc : checksum buffer = 0
    · have hs : buffer.sum % 256 = 255 := (checksum_eq_zero_iff buffer).mp hc
      rw [if_neg (by simp [hc])]
      constructor
      · intro h
        split at h <;> simp_all
      · intro h
        exact absurd hs h
    · have hs : ¬ buffer.sum % 256 = 255 :=
        fun h => hc ((checksum_eq_zero_iff buffer).mpr h)
      rw [if_pos hc]
      simp [hs]

/-- Witness for C3 at a concrete frame and buffer. -/
theorem checksum_invariant_witness :
    ([] : List Nat).length ≤ 5 ∧ ([255, 134, 2, 88, 0, 0, 0, 0, 32] : List Nat).length = 9
    ∧ (encodeFrame 0x86 []).sum % 256 = 255 := by
  refine ⟨by decide, by decide, ?_⟩
  exact (checksum_invariant Unit 0x86 [] [255, 134, 2, 88, 0, 0, 0, 0, 32] 0x86 0
    (by decide) (by decide)).1

/-- C10: `WinsenSensor.new` is the pure pairing of a transport and a
counter and `free` its inverse, so `free (new s c) = (s, c)` for every
transport value and clock value; construction performs no transport or
clock call, as `new` depends on nothing but its two arguments. -/
theorem new_free_identity (S C : Type) (s : S) (c : C) :
    WinsenSensor.free (WinsenSensor.new s c) = (s, c) :=
  rfl

/-- C8: the decode step of `receive_packet` checks the nine-byte
wrapping-sum condition first (failing with `WrongChecksum`), then the
command echo in byte 1 (failing with `WrongPacketType`), and otherwise
succeeds with exactly the `len` bytes starting at offset 2. -/
theorem decode_validation_order (E : Type) (buffer : List Nat) (cmd len : Nat)
    (hb : buffer.length = 9) (hl : len ≤ 6) :
    (buffer.sum % 256 ≠ 255
      → decodeChecks (E := E) buffer cmd len = Except.error Error.WrongChecksum)
    ∧ (buffer.sum % 256 = 255 → buffer.getD 1 0 ≠ cmd
      → decodeChecks (E := E) buffer cmd len = Except.error Error.WrongPacketType)
    ∧ (buffer.sum % 256 = 255 → buffer.getD 1 0 = cmd
      → decodeChecks (E := E) buffer cmd len = Except.ok ((buffer.drop 2).take len)) := by
  refine ⟨?_, ?_, ?_⟩
  · intro hs
    have hc : checksum buffer ≠ 0 := fun h => hs ((checksum_eq_zero_iff buffer).mp h)
    unfold decodeChecks
    rw [if_pos hc]
  · intro hs hcmd
    have hc : checksum buffer = 0 := (checksum_eq_zero_iff buffer).mpr hs
    unfold decodeChecks
    rw [if_neg (by simp [hc]), if_pos hcmd]
  · intro hs hcmd
    have hc : checksum buffer = 0 := (checksum_eq_zero_iff buffer).mpr hs
    unfold decodeChecks
    rw [if_neg (by simp [hc]), if_neg (not_ne_iff.mpr hcmd)]

/-- Witness for C8 on a concrete valid buffer. -/
theorem decode_validation_order_witness :
    ([255, 134, 2, 88, 0, 0, 0, 0, 32] : List Nat).length = 9 ∧ 2 ≤ 6
    ∧ ([255, 134, 2, 88, 0, 0, 0, 0, 32] : List Nat).sum % 256 = 255
    ∧ ([255, 134, 2, 88, 0, 0, 0, 0, 32] : List Nat).getD 1 0 = 134
    ∧ decodeChecks (E := Unit) [255, 134, 2, 88, 0, 0, 0, 0, 32] 134 2
        = Except.ok [2, 88] := by
  refine ⟨by decide, by decide, by decide, by decide, ?_⟩
  exact (decode_validation_order Unit [255, 134, 2, 88, 0, 0, 0, 0, 32] 134 2
    (by decide) (by decide)).2.2 (by decide) (by decide)

/-- C2: `probe` issues the read-concentration exchange
(`simple_command 0x86 []`) at most three times; the first successful
exchange yields `Ok(true)` immediately, the first `Serial` failure is
returned immediately with no further attempt, a protocol-level failure
(`Timeout`, `WrongChecksum`, `WrongPacketType`) on attempts one and two
advances to the next attempt, and a protocol-level failure on the third
attempt yields `Ok(false)`. -/
theorem probe_outcomes (E : Type) (freq : Nat) (envs : Nat → AttemptEnv E)
    (r0 r1 r2 : Except (Error E) Unit)
    (h0 : simple_command 0x86 [] freq (envs 0) = some r0)
    (h1 : simple_command 0x86 [] freq (envs 1) = some r1)
    (h2 : simple_command 0x86 [] freq (envs 2) = some r2) :
    (∀ res n, probe freq envs = some (res, n) → n ≤ 3)
    ∧ (r0 = Except.ok () → probe freq envs = some (Except.ok true, 1))
    ∧ (∀ e, r0 = Except.error (Error.Serial e) → probe freq envs = some (Except.error e, 1))
    ∧ (∀ er0, r0 = Except.error er0 → er0.isProtocol = true →
        r1 = Except.ok () → probe freq envs = some (Except.ok true, 2))
    ∧ (∀ er0 e, r0 = Except.error er0 → er0.isProtocol = true →
        r1 = Except.error (Error.Serial e) → probe freq envs = some (Except.error e, 2))
    ∧ (∀ er0 er1, r0 = Except.error er0 → er0.isProtocol = true →
        r1 = Except.error er1 → er1.isProtocol = true →
        r2 = Except.ok () → probe freq envs = some (Except.ok true, 3))
    ∧ (∀ er0 er1 e, r0 = Except.error er0 → er0.isProtocol = true →
        r1 = Except.error er1 → er1.isProtocol = true →
        r2 = Except.error (Error.Serial e) → probe freq envs = some (Except.error e, 3))
    ∧ (∀ er0 er1 er2, r0 = Except.error er0 → er0.isProtocol = true →
        r1 = Except.error er1 → er1.isProtocol = true →
        r2 = Except.error er2 → er2.isProtocol = true →
        probe freq envs = some (Except.ok false, 3)) := by
  refine ⟨?_, ?_, ?_, ?_, ?_, ?_, ?_, ?_⟩
  · intro res n h
    unfold probe at h
    rw [h0, h1, h2] at h
    rcases r0 with (_ | e0 | _ | _) | u <;>
      rcases r1 with (_ | e1 | _ | _) | u1 <;>
      rcases r2 with (_ | e2 | _ | _) | u2 <;>
      (simp at h; omega)
  · intro hr0
    subst hr0
    unfold probe
    rw [h0]
  · intro e hr0
    subst hr0
    unfold probe
    rw [h0]
  · intro er0 hr0 hp0 hr1
    subst hr0
    subst hr1
    rcases er0 with _ | e0 | _ | _ <;> simp [Error.isProtocol] at hp0 <;>
      (unfold probe; rw [h0, h1])
  · intro er0 e hr0 hp0 hr1
    subst hr0
    subst hr1
    rcases er0 with _ | e0 | _ | _ <;> simp [Error.isProtocol] at hp0 <;>
      (unfold probe; rw [h0, h1])
  · intro er0 er1 hr0 hp0 hr1 hp1 hr2
    subst hr0
    subst hr1
    subst hr2
    rcases er0 with _ | e0 | _ | _ <;> simp [Error.isProtocol] at hp0 <;>
      rcases er1 with _ | e1 | _ | _ <;> simp [Error.isProtocol] at hp1 <;>
      (unfold probe; rw [h0, h1, h2])
  · intro er0 er1 e hr0 hp0 hr1 hp1 hr2
    subst hr0
    subst hr1
    subst hr2
    rcases er0 with _ | e0 | _ | _ <;> simp [Error.isProtocol] at hp0 <;>
      rcases er1 with _ | e1 | _ | _ <;> simp [Error.isProtocol] at hp1 <;>
      (unfold probe; rw [h0, h1, h2])
  · intro er0 er1 er2 hr0 hp0 hr1 hp1 hr2 hp2
    subst hr0
    subst hr1
    subst hr2
    rcases er0 with _ | e0 | _ | _ <;> simp [Error.isProtocol] at hp0 <;>
      rcases er1 with _ | e1 | _ | _ <;> simp [Error.isProtocol] at hp1 <;>
      rcases er2 with _ | e2 | _ | _ <;> simp [Error.isProtocol] at hp2 <;>
      (unfold probe; rw [h0, h1, h2])

/-- Witness for C2: three timed-out exchanges make `probe` conclude the
sensor is absent after exactly three attempts. -/
theorem probe_outcomes_witness :
    simple_command (E := Unit) 0x86 [] 0 ⟨0, [(0, WriteRes.ok)], 0, []⟩
        = some (Except.error Error.Timeout)
    ∧ (Error.Timeout : Error Unit).isProtocol = true
    ∧ probe (E := Unit) 0 (fun _ => ⟨0, [(0, WriteRes.ok)], 0, []⟩)
        = some (Except.ok false, 3) := by
  refine ⟨by decide, by decide, ?_⟩
  exact (probe_outcomes Unit 0 (fun _ => ⟨0, [(0, WriteRes.ok)], 0, []⟩)
    (Except.error Error.Timeout) (Except.error Error.Timeout) (Except.error Error.Timeout)
    (by decide) (by decide) (by decide)).2.2.2.2.2.2.2
    Error.Timeout Error.Timeout Error.Timeout rfl (by decide) rfl (by decide) rfl (by decide)

/-- A successful fill pass returns exactly as many bytes as requested. -/
theorem fillLoop_ok_length (E : Type) (t0 dt : Nat) :
    ∀ (evs : List (Nat × ReadRes E)) (n : Nat) (bs : List Nat),
      fillLoop t0 dt n evs = some (Except.ok bs) → bs.length = n := by
  intro evs
  induction evs with
  | nil =>
    intro n bs h
    cases n with
    | zero =>
      simp [fillLoop] at h
      simp [← h]
    | succ m => simp [fillLoop] at h
  | cons ev evs ih =>
    intro n bs h
    cases n with
    | zero =>
      simp [fillLoop] at h
      simp [← h]
    | succ m =>
      obtain ⟨tick, r⟩ := ev
      unfold fillLoop at h
      by_cases hto : dt ≤ wsub tick t0
      · rw [if_pos hto] at h
        simp at h
      · rw [if_neg hto] at h
        cases r with
        | ok b =>
          cases hfl : fillLoop t0 dt m evs with
          | none => rw [hfl] at h; simp at h
          | some x =>
            cases x with
            | error e => rw [hfl] at h; simp at h
            | ok bs2 =>
              rw [hfl] at h
              simp at h
              rw [← h]
              simp [ih m bs2 hfl]
        | err e => simp at h
        | wouldBlock =>
          cases hfl : fillLoop t0 dt m evs with
          | none => rw [hfl] at h; simp at h
          | some x =>
            cases x with
            | error e => rw [hfl] at h; simp at h
            | ok bs2 =>
              rw [hfl] at h
              simp at h
              rw [← h]
              simp [ih m bs2 hfl]

/-- C9: whenever `receive_packet` returns an error of any kind, the
caller's response buffer is returned unchanged; the buffer is rewritten
only on full success, and then all `resp.length` positions are written. -/
theorem response_untouched_on_error (E : Type) (cmd : Nat) (resp : List Nat)
    (t0 freq : Nat) (evs : List (Nat × ReadRes E))
    (res : Except (Error E) Unit) (out : List Nat)
    (h : receive_packet cmd resp t0 freq evs = some (res, out)) :
    (∀ e, res = Except.error e → out = resp)
    ∧ (res = Except.ok () → out.length = resp.length) := by
  unfold receive_packet at h
  by_cases hlen : resp.length > 6
  · rw [if_pos hlen] at h
    simp at h
  · rw [if_neg hlen] at h
    split at h
    · simp at h
    · simp at h
      refine ⟨fun e2 he => h.2.symm, fun hok => ?_⟩
      rw [← h.1] at hok
      simp at hok
    · rename_i evs2 hs
      split at h
      · simp at h
      · simp at h
        refine ⟨fun e2 he => h.2.symm, fun hok => ?_⟩
        rw [← h.1] at hok
        simp at hok
      · rename_i bs hf
        split at h
        · simp at h
          refine ⟨fun e2 he => h.2.symm, fun hok => ?_⟩
          rw [← h.1] at hok
          simp at hok
        · rename_i payload hd
          have hbs : bs.length = 8 := fillLoop_ok_length E t0 (freq / 10) evs2 8 bs hf
          simp at h
          obtain ⟨hres, hout⟩ := h
          refine ⟨fun e2 he => ?_, fun _ => ?_⟩
          · rw [← hres] at he
            simp at he
          · unfold decodeChecks at hd
            split_ifs at hd with h1 h2
            simp only [Except.ok.injEq] at hd
            rw [← hout, ← hd]
            rw [List.length_take]
            have hd7 : (List.drop 2 (255 :: bs)).length = 7 := by simp [hbs]
            omega

/-- Witness for C9 on a concrete successful receive. -/
theorem response_untouched_on_error_witness :
    receive_packet (E := Unit) 1 [0, 0] 0 10
      (([255, 1, 2, 3, 0, 0, 0, 0, 250] : List Nat).map (fun b => ((0 : Nat), ReadRes.ok b)))
      = some (Except.ok (), [2, 3])
    ∧ ([2, 3] : List Nat).length = ([0, 0] : List Nat).length := by
  refine ⟨by decide, ?_⟩
  exact (response_untouched_on_error Unit 1 [0, 0] 0 10
    (([255, 1, 2, 3, 0, 0, 0, 0, 250] : List Nat).map (fun b => ((0 : Nat), ReadRes.ok b)))
    (Except.ok ()) [2, 3] (by decide)).2 rfl

/-- One scan step on a successfully read byte. -/
theorem scanLoop_cons_ok (E : Type) (t0 dt tick b : Nat) (evs : List (Nat × ReadRes E)) :
    scanLoop t0 dt ((tick, ReadRes.ok b) :: evs)
      = if dt ≤ wsub tick t0 then some (Except.error Error.Timeout)
        else if b = 0xff then some (Except.ok evs) else scanLoop t0 dt evs :=
  rfl

/-- One scan step on a would-block poll. -/
theorem scanLoop_cons_wb (E : Type) (t0 dt tick : Nat) (evs : List (Nat × ReadRes E)) :
    scanLoop t0 dt ((tick, ReadRes.wouldBlock) :: evs)
      = if dt ≤ wsub tick t0 then some (Except.error Error.Timeout)
        else scanLoop t0 dt evs :=
  rfl

/-- One scan step on a transport error. -/
theorem scanLoop_cons_err (E : Type) (t0 dt tick : Nat) (e : E) (evs : List (Nat × ReadRes E)) :
    scanLoop t0 dt ((tick, ReadRes.err e) :: evs)
      = if dt ≤ wsub tick t0 then some (Except.error Error.Timeout)
        else some (Except.error (Error.Serial e)) :=
  rfl

/-- A scan that exhausts a trace without deciding continues into any
appended events. -/
theorem scanLoop_append_none (E : Type) (t0 dt : Nat) :
    ∀ (l l2 : List (Nat × ReadRes E)), scanLoop t0 dt l = none →
      scanLoop t0 dt (l ++ l2) = scanLoop t0 dt l2 := by
  intro l
  induction l with
  | nil => intro l2 _; simp
  | cons ev l ih =>
    intro l2 h
    obtain ⟨tick, r⟩ := ev
    cases r with
    | ok b =>
      rw [scanLoop_cons_ok] at h
      by_cases hto : dt ≤ wsub tick t0
      · rw [if_pos hto] at h; simp at h
      · rw [if_neg hto] at h
        by_cases hb : b = 0xff
        · rw [if_pos hb] at h; simp at h
        · rw [if_neg hb] at h
          rw [List.cons_append, scanLoop_cons_ok, if_neg hto, if_neg hb]
          exact ih l2 h
    | wouldBlock =>
      rw [scanLoop_cons_wb] at h
      by_cases hto : dt ≤ wsub tick t0
      · rw [if_pos hto] at h; simp at h
      · rw [if_neg hto] at h
        rw [List.cons_append, scanLoop_cons_wb, if_neg hto]
        exact ih l2 h
    | err e =>
      rw [scanLoop_cons_err] at h
      by_cases hto : dt ≤ wsub tick t0
      · rw [if_pos hto] at h; simp at h
      · rw [if_neg hto] at h; simp at h

/-- The scan skips any run of successfully read non-marker bytes read at
tick `t0` while the budget is positive. -/
theorem scanLoop_skip (E : Type) (t0 dt : Nat) (hdt : 0 < dt) :
    ∀ (noise : List Nat) (rest : List (Nat × ReadRes E)),
      (∀ b ∈ noise, b ≠ 0xff) →
      scanLoop t0 dt (noise.map (fun b => (t0, ReadRes.ok b)) ++ rest)
        = scanLoop t0 dt rest := by
  intro noise
  induction noise with
  | nil => intro rest _; simp
  | cons b noise ih =>
    intro rest h
    have hb : b ≠ 0xff := h b (by simp)
    rw [List.map_cons, List.cons_append, scanLoop_cons_ok,
      if_neg (by rw [wsub_self]; omega), if_neg hb]
    exact ih rest (fun c hc => h c (by simp [hc]))

/-- A marker byte read at tick `t0` ends the scan at once. -/
theorem scanLoop_marker (E : Type) (t0 dt : Nat) (evs : List (Nat × ReadRes E))
    (hdt : 0 < dt) :
    scanLoop t0 dt ((t0, ReadRes.ok 0xff) :: evs) = some (Except.ok evs) := by
  rw [scanLoop_cons_ok, if_neg (by rw [wsub_self]; omega), if_pos rfl]

/-- The fill pass over a trace of successful reads at tick `t0` returns
exactly the bytes of the trace. -/
theorem fillLoop_oks (E : Type) (t0 dt : Nat) (hdt : 0 < dt) :
    ∀ (l : List Nat),
      fillLoop (E := E) t0 dt l.length (l.map (fun b => (t0, ReadRes.ok b)))
        = some (Except.ok l) := by
  intro l
  induction l with
  | nil => rfl
  | cons b l ih =>
    simp only [List.map_cons, List.length_cons]
    unfold fillLoop
    rw [if_neg (by rw [wsub_self]; omega), ih]

/-- Cons-shaped view of an encoded frame. -/
theorem encodeFrame_cons (cmd : Nat) (p : List Nat) :
    encodeFrame cmd p
      = 0xff :: 0x01 :: cmd :: (p ++ List.replicate (5 - p.length) 0
          ++ [checksum ([0xff, 0x01, cmd] ++ p ++ List.replicate (5 - p.length) 0)]) := by
  simp [encodeFrame]

/-- On a trace of successful reads at tick `t0` made of non-marker noise
followed by a marker byte and eight more bytes, `receive_packet` locks
onto that marker and hands `0xff :: rest9` to the decode step. -/
theorem receive_packet_locks (E : Type) (cmd : Nat) (resp : List Nat) (t0 freq : Nat)
    (noise : List Nat) (rest9 : List Nat)
    (hn : ∀ b ∈ noise, b ≠ 0xff)
    (h8 : rest9.length = 8)
    (hr : resp.length ≤ 6)
    (hdt : 0 < freq / 10) :
    receive_packet (E := E) cmd resp t0 freq
      ((noise ++ 0xff :: rest9).map (fun b => (t0, ReadRes.ok b)))
      = (match decodeChecks (E := E) (0xff :: rest9) cmd resp.length with
         | Except.error e => some (Except.error e, resp)
         | Except.ok payload => some (Except.ok (), payload)) := by
  unfold receive_packet
  rw [if_neg (by omega), List.map_append, scanLoop_skip E t0 (freq / 10) hdt noise _ hn,
    List.map_cons, scanLoop_marker E t0 (freq / 10) _ hdt]
  have hfill := fillLoop_oks E t0 (freq / 10) hdt rest9
  rw [h8] at hfill
  simp only [hfill]

/-- C4 counterexample: with noise `[0x12]`, then a stray `0xFF` inside
further noise that does not start a valid frame, then the well-formed
frame `FF 86 02 58 00 00 00 00 20`, a single `receive_packet` locks onto
the stray marker and fails with `WrongChecksum` instead of recovering
the final frame's payload `[0x02, 0x58]`. -/
theorem resync_stray_ff_counterexample :
    receive_packet (E := Unit) 0x86 [0, 0] 0 10
      (([0x12, 0xff, 0x02, 0, 0, 0, 0, 0, 0,
         0xff, 0x86, 0x02, 0x58, 0, 0, 0, 0, 0x20] : List Nat).map
        (fun b => ((0 : Nat), ReadRes.ok b)))
      ≠ some (Except.ok (), [0x02, 0x58])
    ∧ receive_packet (E := Unit) 0x86 [0, 0] 0 10
      (([0x12, 0xff, 0x02, 0, 0, 0, 0, 0, 0,
         0xff, 0x86, 0x02, 0x58, 0, 0, 0, 0, 0x20] : List Nat).map
        (fun b => ((0 : Nat), ReadRes.ok b)))
      = some (Except.error Error.WrongChecksum, [0, 0]) := by
  refine ⟨?_, by decide⟩
  decide

/-- C4 (amended): on a stream of noise bytes none equal to `0xFF`
followed by one well-formed 9-byte frame, `receive_packet` locks onto
the frame's marker and recovers exactly that frame's payload. -/
theorem resync_no_stray_ff_recovers (E : Type) (cmd : Nat)
    (noise frame resp : List Nat) (t0 freq : Nat)
    (hn : ∀ b ∈ noise, b ≠ 0xff)
    (hf : frame.length = 9) (hhead : frame.getD 0 0 = 0xff)
    (hsum : frame.sum % 256 = 255) (hcmd : frame.getD 1 0 = cmd)
    (hr : resp.length ≤ 6) (hdt : 0 < freq / 10) :
    receive_packet (E := E) cmd resp t0 freq
      ((noise ++ frame).map (fun b => (t0, ReadRes.ok b)))
      = some (Except.ok (), (frame.drop 2).take resp.length) := by
  obtain ⟨b0, rest9, rfl⟩ : ∃ b0 rest9, frame = b0 :: rest9 := by
    cases frame with
    | nil => simp at hf
    | cons b0 rest9 => exact ⟨b0, rest9, rfl⟩
  have hb0 : b0 = 0xff := by simpa using hhead
  subst hb0
  have h8 : rest9.length = 8 := by simpa using hf
  rw [receive_packet_locks E cmd resp t0 freq noise rest9 hn h8 hr hdt]
  have hc0 : checksum (0xff :: rest9) = 0 := (checksum_eq_zero_iff _).mpr hsum
  unfold decodeChecks
  rw [if_neg (by simp [hc0]), if_neg (not_ne_iff.mpr hcmd)]

/-- Witness for C4 (amended) on a concrete noisy stream. -/
theorem resync_no_stray_ff_recovers_witness :
    receive_packet (E := Unit) 0x86 [0, 0] 0 10
      (([0x12, 0x00, 0xff, 0x86, 0x02, 0x58, 0, 0, 0, 0, 0x20] : List Nat).map
        (fun b => ((0 : Nat), ReadRes.ok b)))
      = some (Except.ok (), [0x02, 0x58]) := by
  have h := resync_no_stray_ff_recovers Unit 0x86 [0x12, 0x00]
    [0xff, 0x86, 0x02, 0x58, 0, 0, 0, 0, 0x20] [0, 0] 0 10
    (by decide) (by decide) (by decide) (by decide) (by decide) (by decide) (by decide)
  simpa using h

/-- C5 counterexample: an encoded frame carries the fixed address byte
`0x01` at offset 1, not the command, so decoding the encoded
read-concentration frame with expected command `0x86` and response
length 0 fails with `WrongPacketType` instead of returning the payload. -/
theorem roundtrip_same_command_counterexample :
    receive_packet (E := Unit) 0x86 [] 0 10
      ((encodeFrame 0x86 []).map (fun b => ((0 : Nat), ReadRes.ok b)))
      ≠ some (Except.ok (), [])
    ∧ receive_packet (E := Unit) 0x86 [] 0 10
      ((encodeFrame 0x86 []).map (fun b => ((0 : Nat), ReadRes.ok b)))
      = some (Except.error Error.WrongPacketType, []) :=
  ⟨by decide, by decide⟩

/-- C5 (amended): decoding the frame produced by encoding
`(command, payload)` — with expected command `0x01` (the fixed request
address byte at offset 1) and response length `payload.length + 1` —
succeeds and returns the command byte followed by exactly that payload. -/
theorem roundtrip_address_byte (E : Type) (cmd : Nat) (p resp : List Nat) (t0 freq : Nat)
    (hp : p.length ≤ 5) (hr : resp.length = p.length + 1) (hdt : 0 < freq / 10) :
    receive_packet (E := E) 0x01 resp t0 freq
      ((encodeFrame cmd p).map (fun b => (t0, ReadRes.ok b)))
      = some (Except.ok (), cmd :: p) := by
  have h8 : (0x01 :: cmd :: (p ++ List.replicate (5 - p.length) 0
      ++ [checksum ([0xff, 0x01, cmd] ++ p ++ List.replicate (5 - p.length) 0)])).length = 8 := by
    simp
    omega
  have hlocks := receive_packet_locks E 0x01 resp t0 freq []
    (0x01 :: cmd :: (p ++ List.replicate (5 - p.length) 0
      ++ [checksum ([0xff, 0x01, cmd] ++ p ++ List.replicate (5 - p.length) 0)]))
    (by simp) h8 (by omega) hdt
  simp only [List.nil_append] at hlocks
  rw [encodeFrame_cons, hlocks, ← encodeFrame_cons]
  have hc0 : checksum (encodeFrame cmd p) = 0 :=
    (checksum_eq_zero_iff _).mpr (encodeFrame_sum cmd p)
  have hg : (encodeFrame cmd p).getD 1 0 = 0x01 := by
    rw [encodeFrame_cons]
    rfl
  unfold decodeChecks
  rw [if_neg (by simp [hc0]), if_neg (not_ne_iff.mpr hg)]
  have htake : ((encodeFrame cmd p).drop 2).take resp.length = cmd :: p := by
    rw [encodeFrame_cons, hr]
    show List.take (p.length + 1) (cmd :: (p ++ List.replicate (5 - p.length) 0
      ++ [checksum ([0xff, 0x01, cmd] ++ p ++ List.replicate (5 - p.length) 0)])) = cmd :: p
    rw [List.take_succ_cons, List.append_assoc, List.take_left' rfl]
  rw [htake]

/-- Witness for C5 (amended) on the span-calibration example frame. -/
theorem roundtrip_address_byte_witness :
    receive_packet (E := Unit) 0x01 [0, 0, 0] 0 10
      ((encodeFrame 0x88 [0x07, 0xD0]).map (fun b => ((0 : Nat), ReadRes.ok b)))
      = some (Except.ok (), [0x88, 0x07, 0xD0]) :=
  roundtrip_address_byte Unit 0x88 [0x07, 0xD0] [0, 0, 0] 0 10
    (by decide) (by decide) (by decide)

/-- C6 counterexample: with a clock of frequency 5 (< 10 Hz), a
`send_packet` whose trace offers a writable transport still fails with
`Timeout` at the very first poll — the timeout is not disabled. -/
theorem low_freq_timeout_counterexample :
    send_packet (E := Unit) 0x86 [] 0 5 [(0, WriteRes.ok)]
      = some (Except.error Error.Timeout)
    ∧ receive_packet (E := Unit) 0x86 [] 0 5 [(0, ReadRes.ok 0xff)]
      = some (Except.error Error.Timeout, []) :=
  ⟨by decide, by decide⟩

/-- C6 (amended): when `frequency < 10`, the tick budget
`dt = frequency / 10` truncates to 0, so the deadline check
`elapsed >= dt` holds at the very first poll and both `send_packet` and
`receive_packet` always fail immediately with `Timeout` (the opposite of
a disabled timeout). -/
theorem low_freq_immediate_timeout (E : Type) (cmd : Nat) (p resp : List Nat)
    (t0 freq tick tick2 : Nat) (w : WriteRes E) (r : ReadRes E)
    (evs : List (Nat × WriteRes E)) (revs : List (Nat × ReadRes E))
    (hfreq : freq < 10) (hp : p.length ≤ 5) (hr : resp.length ≤ 6) :
    freq / 10 = 0
    ∧ send_packet cmd p t0 freq ((tick, w) :: evs) = some (Except.error Error.Timeout)
    ∧ receive_packet cmd resp t0 freq ((tick2, r) :: revs)
        = some (Except.error Error.Timeout, resp) := by
  have h0 : freq / 10 = 0 := Nat.div_eq_of_lt hfreq
  refine ⟨h0, ?_, ?_⟩
  · unfold send_packet
    rw [if_neg (by omega), h0, encodeFrame_cons]
    unfold sendLoop
    rw [if_pos (by omega)]
  · unfold receive_packet
    rw [if_neg (by omega), h0]
    unfold scanLoop
    rw [if_pos (by omega)]

/-- Witness for C6 (amended) with a 7 Hz clock. -/
theorem low_freq_immediate_timeout_witness :
    (7 : Nat) < 10 ∧ ([] : List Nat).length ≤ 5 ∧ ([0] : List Nat).length ≤ 6
    ∧ receive_packet (E := Unit) 0x86 [0] 3 7 [(5, ReadRes.wouldBlock)]
        = some (Except.error Error.Timeout, [0]) := by
  refine ⟨by decide, by decide, by decide, ?_⟩
  exact (low_freq_immediate_timeout Unit 0x86 [] [0] 3 7 0 5 WriteRes.ok
    ReadRes.wouldBlock [] [] (by decide) (by decide) (by decide)).2.2

/-- A would-block poll trace shorter than the budget exhausts the trace
without any deadline check tripping. -/
theorem scanLoop_pollTrace (E : Type) (t0 dt : Nat) (hU : dt ≤ 4294967296) :
    ∀ n, n ≤ dt → scanLoop (E := E) t0 dt (pollTrace t0 n) = none := by
  intro n
  induction n with
  | zero => intro _; rfl
  | succ m ih =>
    intro hm
    have hsplit : pollTrace (E := E) t0 (m + 1)
        = pollTrace t0 m ++ [((t0 + m) % 4294967296, ReadRes.wouldBlock)] := by
      simp [pollTrace, List.range_succ]
    rw [hsplit, scanLoop_append_none E t0 dt _ _ (ih (by omega)), scanLoop_cons_wb]
    have hw : wsub ((t0 + m) % 4294967296) t0 = m := by
      rw [wsub_add]
      exact Nat.mod_eq_of_lt (by omega)
    rw [hw, if_neg (by omega)]
    rfl

/-- A would-block poll trace one tick past the budget ends in `Timeout`
exactly at the tick where the wrapped elapsed time reaches the budget. -/
theorem scanLoop_pollTrace_timeout (E : Type) (t0 dt : Nat) (hU : dt < 4294967296) :
    scanLoop (E := E) t0 dt (pollTrace t0 (dt + 1))
      = some (Except.error Error.Timeout) := by
  have hsplit : pollTrace (E := E) t0 (dt + 1)
      = pollTrace t0 dt ++ [((t0 + dt) % 4294967296, ReadRes.wouldBlock)] := by
    simp [pollTrace, List.range_succ]
  rw [hsplit,
    scanLoop_append_none E t0 dt _ _ (scanLoop_pollTrace E t0 dt (by omega) dt le_rfl),
    scanLoop_cons_wb]
  have hw : wsub ((t0 + dt) % 4294967296) t0 = dt := by
    rw [wsub_add]
    exact Nat.mod_eq_of_lt hU
  rw [hw, if_pos le_rfl]

/-- C7: elapsed time is the 32-bit wrapping difference of the current
tick and the start tick, so for any start tick and any true elapsed time
below `2^32` the deadline comparison classifies exactly as if the
counter had not wrapped; a `sendLoop` poll whose wrapped elapsed time
reaches the budget fails with `Timeout` at that byte; and a receive that
never observes `0xFF` does not time out through the tick one before
`t0 + frequency/10` but fails with `Timeout` at tick `t0 + frequency/10`
(ticks taken modulo `2^32`). -/
theorem wrapping_elapsed_correct (E : Type) (cmd : Nat) (resp : List Nat)
    (t0 freq : Nat) (b : Nat) (bs : List Nat) (w : WriteRes E)
    (evs : List (Nat × WriteRes E)) (tick dt2 : Nat)
    (hr : resp.length ≤ 6) (hU : freq / 10 < 4294967296) :
    (∀ e dt3, e < 4294967296 → (dt3 ≤ wsub ((t0 + e) % 4294967296) t0 ↔ dt3 ≤ e))
    ∧ (dt2 ≤ wsub tick t0 →
        sendLoop t0 dt2 (b :: bs) ((tick, w) :: evs) = some (Except.error Error.Timeout))
    ∧ receive_packet (E := E) cmd resp t0 freq (pollTrace t0 (freq / 10)) = none
    ∧ receive_packet (E := E) cmd resp t0 freq (pollTrace t0 (freq / 10 + 1))
        = some (Except.error Error.Timeout, resp) := by
  refine ⟨?_, ?_, ?_, ?_⟩
  · intro e dt3 he
    rw [wsub_add, Nat.mod_eq_of_lt he]
  · intro h
    unfold sendLoop
    rw [if_pos h]
  · unfold receive_packet
    rw [if_neg (by omega),
      scanLoop_pollTrace E t0 (freq / 10) (by omega) (freq / 10) le_rfl]
  · unfold receive_packet
    rw [if_neg (by omega), scanLoop_pollTrace_timeout E t0 (freq / 10) hU]

/-- Witness for C7 with a start tick three below `2^32` so the failing
poll's tick has wrapped around to a small value. -/
theorem wrapping_elapsed_correct_witness :
    ([] : List Nat).length ≤ 6 ∧ 50 / 10 < 4294967296
    ∧ sendLoop (E := Unit) 4294967293 0 [0] [(0, WriteRes.ok)]
        = some (Except.error Error.Timeout)
    ∧ receive_packet (E := Unit) 0x86 [] 4294967293 50 (pollTrace 4294967293 5) = none
    ∧ receive_packet (E := Unit) 0x86 [] 4294967293 50 (pollTrace 4294967293 6)
        = some (Except.error Error.Timeout, []) := by
  have h := wrapping_elapsed_correct Unit 0x86 [] 4294967293 50 0 [] WriteRes.ok [] 0 0
    (by decide) (by decide)
  exact ⟨by decide, by decide, h.2.1 (by decide), h.2.2.1, h.2.2.2⟩
